import Mathlib

/-!
Shallow embedding of the dns-notes client (Enkel-Digital/dns-notes):
the Vuex store of src/app/src/store.js (note collection, mutations,
actions with their user-confirmed retry protocol), the bootstrap action
loadAllNotes of src/unnamed/part_000, and the vue-router auth guard of
src/unnamed/part_001.

The JS note collection `state.notes` is a plain object keyed by note id;
we embed it as an association list `List (String × Note)` whose order is
the object's key insertion order.  JS property assignment updates an
existing key in place and appends a fresh key at the end; `delete`
removes the key; lookup returns the first (unique) matching entry.
-/

namespace DnsNotes

/-- A note record, with the fields of the notes held in
`state.notes` of src/app/src/store.js (id, provider, domain, type,
subdomain, value, note, time).  `time` is the creation timestamp in
integer seconds. -/
structure Note where
  id : String
  provider : String
  domain : String
  type : String
  subdomain : String
  value : String
  note : String
  time : Int
deriving DecidableEq, Repr

/-- The note collection: the JS object `state.notes`, embedded as an
association list in key insertion order. -/
abbrev NoteCollection := List (String × Note)

/-- JS property assignment `obj[k] = v`: update the first (unique)
occurrence of `k` in place, else append `(k, v)` at the end. -/
def objSet (l : NoteCollection) (k : String) (v : Note) : NoteCollection :=
  match l with
  | [] => [(k, v)]
  | (k1, v1) :: rest =>
      if k1 = k then (k1, v) :: rest else (k1, v1) :: objSet rest k v

/-- JS `delete obj[k]`: remove the (unique) entry with key `k`, if any. -/
def objDelete (l : NoteCollection) (k : String) : NoteCollection :=
  match l with
  | [] => []
  | (k1, v1) :: rest =>
      if k1 = k then rest else (k1, v1) :: objDelete rest k

/-- JS property read `obj[k]`: the value at key `k`, or `undefined`. -/
def lookup (l : NoteCollection) (k : String) : Option Note :=
  match l with
  | [] => none
  | (k1, v1) :: rest => if k1 = k then some v1 else lookup rest k

/-- The keys of the collection, in insertion order (`Object.keys`). -/
def objKeys (l : NoteCollection) : List String := l.map Prod.fst

/-- Mutation `addNewNote` (store.js line 202):
`(state, note) => (state.notes[note.id] = note)`. -/
def addNewNote (notes : NoteCollection) (note : Note) : NoteCollection :=
  objSet notes note.id note

/-- Mutation `deleteNote` (store.js line 205):
`(state, noteID) => delete state.notes[noteID]`. -/
def deleteNote (notes : NoteCollection) (noteID : String) : NoteCollection :=
  objDelete notes noteID

/-- Mutation `setNotes` (store.js line 208):
`(state, notes) => (state.notes = { ...state.notes, ...notes })` —
a spread merge of the incoming keyed notes over the existing object. -/
def setNotes (notes incoming : NoteCollection) : NoteCollection :=
  incoming.foldl (fun acc kv => objSet acc kv.1 kv.2) notes

/-! ### Events

The incremental-sync events the store can replay.  The spec lists four
variants; the store's appliers present under src/ are the `addNewNote`
and `deleteNote` mutations, and the claims quantify over event lists
built from those two appliers. -/

/-- An ordered event built from the two appliers present in the store:
`add` is applied by the `addNewNote` mutation, `del` by the `deleteNote`
mutation. -/
inductive Event
  | add (n : Note)
  | del (id : String)
deriving DecidableEq, Repr

/-- Apply one event to the collection through the corresponding store
mutation. -/
def applyEvent (c : NoteCollection) : Event → NoteCollection
  | Event.add n => addNewNote c n
  | Event.del id => deleteNote c id

/-- Fold an ordered event list over the collection, first event first. -/
def applyEvents (c : NoteCollection) (es : List Event) : NoteCollection :=
  es.foldl applyEvent c

/-- The write (if any) event `e` performs at key `k`:
`some (some n)` for an overwriting add, `some none` for a delete,
`none` when `e` does not touch `k`. -/
def writeAt (e : Event) (k : String) : Option (Option Note) :=
  match e with
  | Event.add n => if n.id = k then some (some n) else none
  | Event.del j => if j = k then some none else none

/-- The last write an event list performs at key `k`, if any. -/
def lastWrite (es : List Event) (k : String) : Option (Option Note) :=
  match es with
  | [] => none
  | e :: t =>
      match lastWrite t k with
      | some r => some r
      | none => writeAt e k

/-- What `lookup` returns at `k` after folding `es` over `l`: the last
write of `es` at `k` when there is one, else the original value. -/
def lastWriteLookup (es : List Event) (l : NoteCollection) (k : String) : Option Note :=
  match lastWrite es k with
  | some r => r
  | none => lookup l k

/-- Equality of collections as mappings from id to Note (the spec's
NoteCollection is a mapping whose insertion order is irrelevant). -/
def collEquiv (c d : NoteCollection) : Prop :=
  ∀ k, lookup c k = lookup d k

/-! ### The derived notes view (store.js lines 189-192)

`notes: (state) => Object.values(state.notes).sort((a, b) => b.time - a.time)`:
the values of the collection, sorted by the comparator that orders
larger `time` first. -/

/-- The order the getter's comparator `(a, b) => b.time - a.time`
sorts by: `a` precedes `b` when `b.time ≤ a.time` (descending time). -/
def byTimeDesc (a b : Note) : Prop := b.time ≤ a.time

instance : DecidableRel byTimeDesc :=
  fun a b => inferInstanceAs (Decidable (b.time ≤ a.time))

instance : IsTotal Note byTimeDesc :=
  ⟨fun a b => le_total b.time a.time⟩

instance : IsTrans Note byTimeDesc :=
  ⟨fun _ _ _ hab hbc => le_trans hbc hab⟩

/-- Getter `notes`: the collection's values sorted newest-first by the
`b.time - a.time` comparator (embedded as a comparison sort w.r.t.
`byTimeDesc`). -/
def notesGetter (notes : NoteCollection) : List Note :=
  List.insertionSort byTimeDesc (notes.map Prod.snd)

/-! ### Store state, commits and actions -/

/-- The Vuex store state of src/app/src/store.js: the shared `loading`
flag and the `notes` object.  `lastSync` holds the SyncCheckpoint's
`lastSyncTime`; the `setLastSync` mutation committed by `loadAllNotes`
is not under src/, so its target field is modelled from the spec
(§3 SyncCheckpoint: `{ lastSyncTime: integer seconds }`). -/
structure StoreState where
  loading : Bool
  notes : NoteCollection
  lastSync : Int
deriving DecidableEq, Repr

/-- A mutation commit issued by an action: `setNotes` (store.js line
208) or `setLastSync` (committed at src/unnamed/part_000 line 30). -/
inductive Commit
  | setNotes (payload : NoteCollection)
  | setLastSync (time : Int)
deriving DecidableEq, Repr

/-- Apply one commit to the store state.  `Commit.setNotes` runs the
`setNotes` spread-merge mutation; `Commit.setLastSync` stores the
checkpoint time (modelled from the spec, see `StoreState.lastSync`). -/
def applyCommit (s : StoreState) : Commit → StoreState
  | Commit.setNotes payload => { s with notes := setNotes s.notes payload }
  | Commit.setLastSync t => { s with lastSync := t }

/-- The JSON response of the bootstrap fetch `GET /note/all/:org`
consumed by `loadAllNotes`: `ok`, `error`, the full keyed note
collection `notes`, and the authoritative server time `time`. -/
structure AllNotesResponse where
  ok : Bool
  error : String
  notes : NoteCollection
  time : Int
deriving DecidableEq, Repr

/-- Action `loadAllNotes` (src/unnamed/part_000 lines 16-31), given the
fetch response: on `!res.ok` it throws (`Except.error res.error`);
otherwise it commits `setNotes res.notes` and then `setLastSync
res.time`, in that order.  The returned list is the ordered commit
trace. -/
def loadAllNotes (res : AllNotesResponse) : Except String (List Commit) :=
  if res.ok = true then
    Except.ok [Commit.setNotes res.notes, Commit.setLastSync res.time]
  else
    Except.error res.error

/-- Run `loadAllNotes` against a store state: apply its commit trace in
order. -/
def runLoadAllNotes (s : StoreState) (res : AllNotesResponse) : Except String StoreState :=
  (loadAllNotes res).map (fun cs => cs.foldl applyCommit s)

/-- The JSON response consumed by the `loadDates` action of
src/app/src/store.js (lines 212-233): `ok`, `error` and the `notes`
page whose length the action tests. -/
structure NotesPageResponse where
  ok : Bool
  error : String
  notes : NoteCollection
deriving DecidableEq, Repr

/-- How one round of the `loadDates` action ends.  `retried after`
models `confirm(...) && dispatch("loadDates", after)` with the user
confirming; `abandoned` is the same expression with `confirm` returning
`false`, so the action returns the falsy `false` without throwing;
`allLoaded` is the `alert("All notes loaded!")` early return;
`completed` committed `setNotes`. -/
inductive LoadDatesOutcome
  | retried (after : Option Int)
  | abandoned
  | allLoaded
  | completed
deriving DecidableEq, Repr

/-- The URL `loadDates` fetches: with the optional `after` parameter
when it was passed, else the bare path. -/
def requestUrl (after : Option Int) : String :=
  match after with
  | some a => "/appointment/available/date?after=" ++ toString a
  | none => "/appointment/available/date"

/-- One round of the `loadDates` action (store.js lines 212-233): the
resulting store state, the network requests issued, and the outcome.
`confirmRetry` is the user's answer to the `confirm` dialog shown on
failure. -/
def loadDates (s : StoreState) (after : Option Int) (res : NotesPageResponse)
    (confirmRetry : Bool) : StoreState × List String × LoadDatesOutcome :=
  if res.ok = false then
    if confirmRetry = true then
      (s, [requestUrl after], LoadDatesOutcome.retried after)
    else
      (s, [requestUrl after], LoadDatesOutcome.abandoned)
  else if res.notes.length = 0 then
    (s, [requestUrl after], LoadDatesOutcome.allLoaded)
  else
    ({ s with notes := setNotes s.notes res.notes },
      [requestUrl after], LoadDatesOutcome.completed)

/-- Action `newNote` (store.js lines 235-237): the body's first
statement is `return commit("addNewNote", note)`, so the action commits
the local mutation and returns; the fetch and retry code below it
(lines 239-266) is unreachable.  Result: the new store state and the
(empty) list of network requests issued. -/
def newNoteAction (s : StoreState) (note : Note) : StoreState × List String :=
  ({ s with notes := addNewNote s.notes note }, [])

/-- Action `deleteNote` (store.js lines 269-271): the body's first
statement is `return commit("deleteNote", noteID)`, so the action
commits the local mutation and returns; the fetch and retry code below
it (lines 273-298) is unreachable.  Result: the new store state and the
(empty) list of network requests issued. -/
def deleteNoteAction (s : StoreState) (noteID : String) : StoreState × List String :=
  ({ s with notes := deleteNote s.notes noteID }, [])

/-! ### The failure branch of the retry protocol

Each remote action handles a failed response with
`return confirm(...) && dispatch(<action>, <arg>)`: if the user
confirms, the action is re-dispatched with the written argument; if the
user declines, the expression short-circuits to the falsy `false`.
The functions below embed that failure branch literally, recording the
argument the re-dispatch passes (`none` models a JS `undefined`
argument). -/

/-- Outcome of the failure branch: re-dispatched with argument `arg`,
or abandoned (the action returns the falsy `false`, not an
exception). -/
inductive RetryDecision (α : Type)
  | retried (arg : α)
  | abandoned
deriving DecidableEq, Repr

/-- `loadDates` failure branch (store.js lines 224-228):
`confirm(...) && dispatch("loadDates", after)` — re-dispatches with the
same `after` argument. -/
def loadDatesRetry (after : Option Int) (confirmRetry : Bool) :
    RetryDecision (Option Int) :=
  if confirmRetry = true then RetryDecision.retried after
  else RetryDecision.abandoned

/-- `deleteNote` failure branch (store.js lines 281-285 and 293-297):
`confirm(...) && dispatch("deleteNote", noteID)` — re-dispatches with
the same `noteID` argument. -/
def deleteNoteRetry (noteID : Option String) (confirmRetry : Bool) :
    RetryDecision (Option String) :=
  if confirmRetry = true then RetryDecision.retried noteID
  else RetryDecision.abandoned

/-- `newNote` failure branch (store.js lines 248-252 and 262-265):
`confirm(...) && dispatch("newNote")` — the re-dispatch passes NO
payload, so the retried invocation receives `undefined` (`none`) in
place of the original `note` argument, which this branch ignores. -/
def newNoteRetry (_note : Option Note) (confirmRetry : Bool) :
    RetryDecision (Option Note) :=
  if confirmRetry = true then RetryDecision.retried none
  else RetryDecision.abandoned

/-! ### The router auth guard (src/unnamed/part_001) -/

/-- The `AuthType` enum (part_001 lines 21-25): `public`, `public_only`
and `private` (the last renamed, `private` being reserved in Lean). -/
inductive AuthType
  | publicAuth
  | publicOnlyAuth
  | privateAuth
deriving DecidableEq, Repr

/-- The record `requiredAuth` returns (part_001 lines 119-123): one
boolean per auth class, keyed `public` / `public_only` / `private` in
the source. -/
structure RequiredAuth where
  pub : Bool
  pub_only : Bool
  priv : Bool
deriving DecidableEq, Repr

/-- The navigation target `to`: its route name, path, query parameters,
and the `Auth_requirements` of `to.matched[0].meta`. -/
structure RouteTo where
  name : String
  path : String
  query : List (String × String)
  auth : AuthType
deriving DecidableEq, Repr

/-- The object `JSON.stringify({ path: to.path, query: to.query })`
carried in the login redirect's `redirect` query parameter. -/
structure RedirectPayload where
  path : String
  query : List (String × String)
deriving DecidableEq, Repr

/-- What the guard passes to `next`: plain continuation, or a redirect
to a named route, optionally carrying the login redirect payload. -/
inductive NavDecision
  | proceed
  | go (name : String) (redirectQuery : Option RedirectPayload)
deriving DecidableEq, Repr

/-- `requiredAuth` (part_001 lines 115-124): compares the route's
`Auth_requirements` against each enum member with `===`. -/
def requiredAuth (route : RouteTo) : RequiredAuth :=
  { pub := decide (route.auth = AuthType.publicAuth)
    pub_only := decide (route.auth = AuthType.publicOnlyAuth)
    priv := decide (route.auth = AuthType.privateAuth) }

/-- The route guard `AuthChecker` (part_001 lines 131-171), with the
firebase `currentUser` presence and the vuex `store.state.org` presence
as boolean inputs.  The login redirect attaches the
`redirect` query exactly when `to.path !== "/"`. -/
def AuthChecker (dest : RouteTo) (currentUser : Bool) (orgSet : Bool) : NavDecision :=
  let req := requiredAuth dest
  if req.priv = true ∧ currentUser = false then
    NavDecision.go "login"
      (if dest.path = "/" then none
       else some { path := dest.path, query := dest.query })
  else if req.pub_only = true ∧ currentUser = true then
    NavDecision.go "home" none
  else if currentUser = true ∧ dest.name = "new-user" ∧ orgSet = true then
    NavDecision.go "home" none
  else if currentUser = true ∧ dest.name ≠ "new-user" ∧ orgSet = false then
    NavDecision.go "new-user" none
  else
    NavDecision.proceed

/-! ### Sample data (the default notes of store.js, abbreviated) -/

/-- The first sample note of the default store state. -/
def sampleNote1 : Note :=
  { id := "sldgjldskjglsd", provider := "cloudflare", domain := "covid.gov.sg"
    type := "CNAME", subdomain := "_lnslgknlsfIOH_lsndlgdsl", value := ""
    note := "Domain verification for Emails", time := 1643184535 }

/-- The second sample note of the default store state. -/
def sampleNote2 : Note :=
  { id := "rwihfnldbxf", provider := "route53", domain := "redeem.gov.sg"
    type := "CNAME", subdomain := "_23ikef_lsndlgdsl", value := ""
    note := "Domain verification for Emails", time := 1643184537 }

/-- The default `state.notes` collection. -/
def sampleColl : NoteCollection :=
  [("sldgjldskjglsd", sampleNote1), ("rwihfnldbxf", sampleNote2)]

/-- A sample ordered event list over the two appliers. -/
def sampleEvents : List Event :=
  [Event.del "sldgjldskjglsd", Event.add sampleNote1, Event.add sampleNote2]

/-- A successful bootstrap response carrying one note. -/
def sampleRes : AllNotesResponse :=
  { ok := true, error := "", notes := [("rwihfnldbxf", sampleNote2)], time := 1000 }

/-- A store state holding one locally persisted note that the server
response `sampleRes` does not contain. -/
def staleState : StoreState :=
  { loading := false, notes := [("sldgjldskjglsd", sampleNote1)], lastSync := 0 }

/-- The state `runLoadAllNotes staleState sampleRes` produces: the
stale note is still present because `setNotes` merges. -/
def bootstrappedState : StoreState :=
  { loading := false
    notes := [("sldgjldskjglsd", sampleNote1), ("rwihfnldbxf", sampleNote2)]
    lastSync := 1000 }

/-- A failed page response. -/
def failRes : NotesPageResponse :=
  { ok := false, error := "network down", notes := [] }

/-- A private route with a non-root path and a query. -/
def createRoute : RouteTo :=
  { name := "create", path := "/create", query := [("a", "b")]
    auth := AuthType.privateAuth }

/-! ### Basic lemmas about the object operations -/

theorem objKeys_nil : objKeys [] = [] := rfl

theorem objKeys_cons (k1 : String) (v1 : Note) (tl : NoteCollection) :
    objKeys ((k1, v1) :: tl) = k1 :: objKeys tl := rfl

theorem lookup_objSet (l : NoteCollection) (k : String) (v : Note) (k2 : String) :
    lookup (objSet l k v) k2 = if k2 = k then some v else lookup l k2 := by
  induction l with
  | nil =>
      by_cases h : k2 = k
      · subst h
        simp [objSet, lookup]
      · simp [objSet, lookup, h, Ne.symm h]
  | cons hd tl ih =>
      obtain ⟨k1, v1⟩ := hd
      by_cases h1 : k1 = k
      · rw [objSet, if_pos h1, lookup]
        by_cases h2 : k1 = k2
        · rw [if_pos h2, if_pos (h2.symm.trans h1)]
        · have h3 : ¬k2 = k := fun hh => h2 (h1.trans hh.symm)
          rw [if_neg h2, if_neg h3, lookup, if_neg h2]
      · rw [objSet, if_neg h1, lookup]
        by_cases h2 : k1 = k2
        · have h3 : ¬k2 = k := fun hh => h1 (h2.trans hh)
          rw [if_pos h2, if_neg h3, lookup, if_pos h2]
        · rw [if_neg h2, ih]
          by_cases h3 : k2 = k
          · rw [if_pos h3, if_pos h3]
          · rw [if_neg h3, if_neg h3, lookup, if_neg h2]

theorem lookup_eq_none_iff (l : NoteCollection) (k : String) :
    lookup l k = none ↔ k ∉ objKeys l := by
  induction l with
  | nil => simp [lookup, objKeys_nil]
  | cons hd tl ih =>
      obtain ⟨k1, v1⟩ := hd
      simp only [objKeys_cons, List.mem_cons]
      by_cases h : k1 = k
      · simp [lookup, h]
      · simp [lookup, h, Ne.symm h, ih]

theorem objDelete_of_absent (l : NoteCollection) (k : String)
    (h : lookup l k = none) : objDelete l k = l := by
  induction l with
  | nil => rfl
  | cons hd tl ih =>
      obtain ⟨k1, v1⟩ := hd
      by_cases h1 : k1 = k
      · simp [lookup, h1] at h
      · simp [lookup, h1] at h
        simp [objDelete, h1, ih h]

theorem objSet_objSet (l : NoteCollection) (k : String) (v w : Note) :
    objSet (objSet l k v) k w = objSet l k w := by
  induction l with
  | nil => simp [objSet]
  | cons hd tl ih =>
      obtain ⟨k1, v1⟩ := hd
      by_cases h1 : k1 = k <;> simp [objSet, h1, ih]

theorem objDelete_objSet (l : NoteCollection) (k : String) (v : Note) :
    objDelete (objSet l k v) k = objDelete l k := by
  induction l with
  | nil => simp [objSet, objDelete]
  | cons hd tl ih =>
      obtain ⟨k1, v1⟩ := hd
      by_cases h1 : k1 = k <;> simp [objSet, objDelete, h1, ih]

theorem mem_objKeys_objSet (l : NoteCollection) (k : String) (v : Note) (k2 : String) :
    k2 ∈ objKeys (objSet l k v) ↔ k2 ∈ objKeys l ∨ k2 = k := by
  induction l with
  | nil => simp [objSet, objKeys_nil, objKeys_cons]
  | cons hd tl ih =>
      obtain ⟨k1, v1⟩ := hd
      by_cases h1 : k1 = k
      · subst h1
        rw [objSet, if_pos rfl, objKeys_cons, objKeys_cons]
        simp only [List.mem_cons]
        tauto
      · rw [objSet, if_neg h1, objKeys_cons, objKeys_cons]
        simp only [List.mem_cons, ih, or_assoc]

theorem mem_objKeys_objDelete (l : NoteCollection) (k : String) (k2 : String)
    (h : k2 ∈ objKeys (objDelete l k)) : k2 ∈ objKeys l := by
  induction l with
  | nil => simp [objDelete, objKeys_nil] at h
  | cons hd tl ih =>
      obtain ⟨k1, v1⟩ := hd
      by_cases h1 : k1 = k
      · rw [objDelete, if_pos h1] at h
        rw [objKeys_cons, List.mem_cons]
        exact Or.inr h
      · rw [objDelete, if_neg h1, objKeys_cons, List.mem_cons] at h
        rw [objKeys_cons, List.mem_cons]
        rcases h with h | h
        · exact Or.inl h
        · exact Or.inr (ih h)

theorem nodup_objSet (l : NoteCollection) (k : String) (v : Note)
    (h : (objKeys l).Nodup) : (objKeys (objSet l k v)).Nodup := by
  induction l with
  | nil => simp [objSet, objKeys_cons, objKeys_nil]
  | cons hd tl ih =>
      obtain ⟨k1, v1⟩ := hd
      rw [objKeys_cons, List.nodup_cons] at h
      by_cases h1 : k1 = k
      · rw [objSet, if_pos h1, objKeys_cons, List.nodup_cons]
        exact h
      · rw [objSet, if_neg h1, objKeys_cons, List.nodup_cons]
        refine ⟨fun hmem => ?_, ih h.2⟩
        rcases (mem_objKeys_objSet tl k v k1).1 hmem with hm | hm
        · exact h.1 hm
        · exact h1 hm

theorem nodup_objDelete (l : NoteCollection) (k : String)
    (h : (objKeys l).Nodup) : (objKeys (objDelete l k)).Nodup := by
  induction l with
  | nil => simp [objDelete, objKeys_nil]
  | cons hd tl ih =>
      obtain ⟨k1, v1⟩ := hd
      rw [objKeys_cons, List.nodup_cons] at h
      by_cases h1 : k1 = k
      · rw [objDelete, if_pos h1]
        exact h.2
      · rw [objDelete, if_neg h1, objKeys_cons, List.nodup_cons]
        exact ⟨fun hmem => h.1 (mem_objKeys_objDelete tl k k1 hmem), ih h.2⟩

theorem lookup_objDelete (l : NoteCollection) (k : String) (k2 : String)
    (h : (objKeys l).Nodup) :
    lookup (objDelete l k) k2 = if k2 = k then none else lookup l k2 := by
  induction l with
  | nil => simp [objDelete, lookup]
  | cons hd tl ih =>
      obtain ⟨k1, v1⟩ := hd
      rw [objKeys_cons, List.nodup_cons] at h
      by_cases h1 : k1 = k
      · by_cases h2 : k2 = k
        · have hk : k ∉ objKeys tl := h1 ▸ h.1
          rw [objDelete, if_pos h1, if_pos h2, h2,
            (lookup_eq_none_iff tl k).2 hk]
        · have h3 : ¬k1 = k2 := fun hh => h2 (hh ▸ h1.symm ▸ rfl)
          rw [objDelete, if_pos h1, if_neg h2, lookup, if_neg h3]
      · by_cases h2 : k2 = k1
        · have h3 : ¬k2 = k := fun hh => h1 (h2 ▸ hh)
          rw [objDelete, if_neg h1, lookup, if_pos h2.symm, if_neg h3,
            lookup, if_pos h2.symm]
        · rw [objDelete, if_neg h1, lookup, if_neg (Ne.symm h2), ih h.2]
          by_cases h3 : k2 = k
          · rw [if_pos h3, if_pos h3]
          · rw [if_neg h3, if_neg h3, lookup, if_neg (Ne.symm h2)]

/-! ### Lemmas about event folding -/

theorem nodup_applyEvent (l : NoteCollection) (e : Event)
    (h : (objKeys l).Nodup) : (objKeys (applyEvent l e)).Nodup := by
  cases e with
  | add n => exact nodup_objSet l n.id n h
  | del id => exact nodup_objDelete l id h

theorem applyEvents_nil (l : NoteCollection) : applyEvents l [] = l := rfl

theorem applyEvents_cons (l : NoteCollection) (e : Event) (t : List Event) :
    applyEvents l (e :: t) = applyEvents (applyEvent l e) t := rfl

theorem nodup_applyEvents (es : List Event) (l : NoteCollection)
    (h : (objKeys l).Nodup) : (objKeys (applyEvents l es)).Nodup := by
  induction es generalizing l with
  | nil => exact h
  | cons e t ih =>
      rw [applyEvents_cons]
      exact ih (applyEvent l e) (nodup_applyEvent l e h)

theorem lookup_applyEvent_writeAt (l : NoteCollection) (e : Event) (k : String)
    (h : (objKeys l).Nodup) (hw : writeAt e k = none) :
    lookup (applyEvent l e) k = lookup l k := by
  cases e with
  | add n =>
      rw [writeAt] at hw
      by_cases hn : n.id = k
      · rw [if_pos hn] at hw
        exact absurd hw (by simp)
      · rw [applyEvent, addNewNote, lookup_objSet,
          if_neg (fun hh => hn hh.symm)]
  | del j =>
      rw [writeAt] at hw
      by_cases hj : j = k
      · rw [if_pos hj] at hw
        exact absurd hw (by simp)
      · rw [applyEvent, deleteNote, lookup_objDelete l j k h,
          if_neg (fun hh => hj hh.symm)]

theorem lookup_applyEvent_writeAt_some (l : NoteCollection) (e : Event) (k : String)
    (r : Option Note) (h : (objKeys l).Nodup) (hw : writeAt e k = some r) :
    lookup (applyEvent l e) k = r := by
  cases e with
  | add n =>
      rw [writeAt] at hw
      by_cases hn : n.id = k
      · rw [if_pos hn] at hw
        rw [applyEvent, addNewNote, lookup_objSet, if_pos hn.symm]
        exact Option.some.inj hw
      · rw [if_neg hn] at hw
        exact absurd hw (by simp)
  | del j =>
      rw [writeAt] at hw
      by_cases hj : j = k
      · rw [if_pos hj] at hw
        rw [applyEvent, deleteNote, lookup_objDelete l j k h, if_pos hj.symm]
        exact Option.some.inj hw
      · rw [if_neg hj] at hw
        exact absurd hw (by simp)

theorem lookup_applyEvents (es : List Event) (l : NoteCollection) (k : String)
    (h : (objKeys l).Nodup) :
    lookup (applyEvents l es) k = lastWriteLookup es l k := by
  induction es generalizing l with
  | nil => rfl
  | cons e t ih =>
      rw [applyEvents_cons, ih (applyEvent l e) (nodup_applyEvent l e h)]
      rw [lastWriteLookup, lastWriteLookup, lastWrite]
      cases ht : lastWrite t k with
      | some r => rfl
      | none =>
          cases hw : writeAt e k with
          | some r => exact lookup_applyEvent_writeAt_some l e k r h hw
          | none => exact lookup_applyEvent_writeAt l e k h hw

theorem lookup_objDelete_ne (l : NoteCollection) (k k2 : String) (h : ¬k2 = k) :
    lookup (objDelete l k) k2 = lookup l k2 := by
  induction l with
  | nil => rfl
  | cons hd tl ih =>
      obtain ⟨k1, v1⟩ := hd
      by_cases h1 : k1 = k
      · have h3 : ¬k1 = k2 := fun hh => h (hh.symm.trans h1)
        rw [objDelete, if_pos h1, lookup, if_neg h3]
      · rw [objDelete, if_neg h1, lookup, lookup]
        by_cases h2 : k1 = k2
        · rw [if_pos h2, if_pos h2]
        · rw [if_neg h2, if_neg h2, ih]

/-! ### Claim theorems -/

/-- C3: the `addNewNote` mutation (`Add(note)`) inserts the note keyed
by `note.id`, overwriting any existing note with that id and leaving
every other key untouched; applying the same Add a second time leaves
the collection identical to after the first application. -/
theorem addNewNote_overwrites_and_idempotent :
    ∀ (C : NoteCollection) (n : Note),
      lookup (addNewNote C n) n.id = some n
      ∧ (∀ k, k ≠ n.id → lookup (addNewNote C n) k = lookup C k)
      ∧ addNewNote (addNewNote C n) n = addNewNote C n := by
  intro C n
  refine ⟨?_, fun k hk => ?_, ?_⟩
  · rw [addNewNote, lookup_objSet, if_pos rfl]
  · rw [addNewNote, lookup_objSet, if_neg hk]
  · simp only [addNewNote]
    exact objSet_objSet C n.id n n

theorem addNewNote_overwrites_and_idempotent_w :
    lookup (addNewNote sampleColl sampleNote1) "zzz" = lookup sampleColl "zzz" :=
  (addNewNote_overwrites_and_idempotent sampleColl sampleNote1).2.1 "zzz" (by decide)

/-- C4: the `deleteNote` mutation (`Delete(id)`) removes the note keyed
`k` if present and leaves other keys untouched; deleting an absent id
returns the collection unchanged (the mutation is total, no error
path); re-applying the delete is a no-op.  The uniqueness-of-keys
hypotheses hold for every JS object state. -/
theorem deleteNote_total_and_idempotent :
    ∀ (C : NoteCollection) (k : String),
      (lookup C k = none → deleteNote C k = C)
      ∧ (∀ k2, k2 ≠ k → lookup (deleteNote C k) k2 = lookup C k2)
      ∧ ((objKeys C).Nodup → lookup (deleteNote C k) k = none)
      ∧ ((objKeys C).Nodup → deleteNote (deleteNote C k) k = deleteNote C k) := by
  intro C k
  refine ⟨fun h => ?_, fun k2 h2 => ?_, fun h => ?_, fun h => ?_⟩
  · rw [deleteNote]
    exact objDelete_of_absent C k h
  · rw [deleteNote]
    exact lookup_objDelete_ne C k k2 h2
  · rw [deleteNote, lookup_objDelete C k k h, if_pos rfl]
  · have h2 : lookup (objDelete C k) k = none := by
      rw [lookup_objDelete C k k h, if_pos rfl]
    simp only [deleteNote]
    exact objDelete_of_absent (objDelete C k) k h2

theorem deleteNote_total_and_idempotent_w :
    deleteNote sampleColl "absent" = sampleColl
    ∧ lookup (deleteNote sampleColl "sldgjldskjglsd") "sldgjldskjglsd" = none :=
  ⟨(deleteNote_total_and_idempotent sampleColl "absent").1 (by decide),
   (deleteNote_total_and_idempotent sampleColl "sldgjldskjglsd").2.2.1 (by decide)⟩

/-- C5: folding an ordered event list over a collection twice yields
the same final collection as folding it once, where collections are
compared as mappings from id to Note (the spec's NoteCollection:
insertion order irrelevant).  The hypothesis that keys are unique holds
for every JS object state. -/
theorem applyEvents_twice_eq_once :
    ∀ (C : NoteCollection) (E : List Event), (objKeys C).Nodup →
      collEquiv (applyEvents (applyEvents C E) E) (applyEvents C E) := by
  intro C E h k
  have hD : (objKeys (applyEvents C E)).Nodup := nodup_applyEvents E C h
  rw [lookup_applyEvents E (applyEvents C E) k hD]
  cases ht : lastWrite E k with
  | some r =>
      rw [lastWriteLookup, ht, lookup_applyEvents E C k h, lastWriteLookup, ht]
  | none =>
      rw [lastWriteLookup, ht]

theorem applyEvents_twice_eq_once_w :
    lookup (applyEvents (applyEvents sampleColl sampleEvents) sampleEvents) "rwihfnldbxf"
      = lookup (applyEvents sampleColl sampleEvents) "rwihfnldbxf" :=
  applyEvents_twice_eq_once sampleColl sampleEvents (by decide) "rwihfnldbxf"

/-- C8: the derived read-only `notes` getter is the list of all notes
in the collection sorted by their creation timestamp `time` in
descending order (newest first), for every collection state. -/
theorem notesGetter_sorted_desc :
    ∀ (notes : NoteCollection),
      List.Sorted byTimeDesc (notesGetter notes)
      ∧ List.Perm (notesGetter notes) (notes.map Prod.snd) :=
  fun notes =>
    ⟨List.sorted_insertionSort byTimeDesc (notes.map Prod.snd),
     List.perm_insertionSort byTimeDesc (notes.map Prod.snd)⟩

/-- C1: in `loadAllNotes`, the successful commit trace is exactly
`setNotes` then `setLastSync`: every `setLastSync` commit in the trace
is strictly preceded by a `setNotes` commit, so the checkpoint is never
advanced before the notes are committed. -/
theorem loadAllNotes_notes_before_checkpoint :
    ∀ (res : AllNotesResponse) (cs : List Commit),
      loadAllNotes res = Except.ok cs →
      cs = [Commit.setNotes res.notes, Commit.setLastSync res.time]
      ∧ (∀ (i : Nat) (t : Int), cs[i]? = some (Commit.setLastSync t) →
          ∃ (j : Nat) (p : NoteCollection),
            j < i ∧ cs[j]? = some (Commit.setNotes p)) := by
  intro res cs h
  rw [loadAllNotes] at h
  by_cases hok : res.ok = true
  · rw [if_pos hok] at h
    cases h
    refine ⟨rfl, ?_⟩
    intro i t hi
    cases i with
    | zero => exact absurd hi (by simp)
    | succ n =>
        cases n with
        | zero => exact ⟨0, res.notes, by omega, by simp⟩
        | succ m => exact absurd hi (by simp)
  · rw [if_neg hok] at h
    exact Except.noConfusion h

theorem loadAllNotes_notes_before_checkpoint_w :
    ∃ (j : Nat) (p : NoteCollection), j < 1
      ∧ ([Commit.setNotes sampleRes.notes,
          Commit.setLastSync sampleRes.time][j]? = some (Commit.setNotes p)) :=
  (loadAllNotes_notes_before_checkpoint sampleRes
      [Commit.setNotes sampleRes.notes, Commit.setLastSync sampleRes.time]
      rfl).2 1 sampleRes.time (by simp)

/-- C2 (code-bug evidence): a bootstrap does NOT replace the local
collection wholesale.  `staleState` holds a note absent from the server
response `sampleRes`; after running `loadAllNotes` the stale note is
still present, because the `setNotes` mutation spread-merges instead of
resetting — contradicting the action's own doc comment ("reset vuex
notes to be what the API returned"). -/
theorem loadAllNotes_merge_keeps_stale_note :
    runLoadAllNotes staleState sampleRes = Except.ok bootstrappedState
    ∧ lookup bootstrappedState.notes "sldgjldskjglsd" = some sampleNote1
    ∧ lookup sampleRes.notes "sldgjldskjglsd" = none :=
  ⟨rfl, rfl, rfl⟩

/-- C6 (code-bug evidence): on failure with the user confirming, the
`loadDates` and `deleteNote` failure branches re-dispatch with their
original argument, but the `newNote` failure branch re-dispatches
`dispatch("newNote")` with no payload: the retried invocation gets
`undefined` (`none`) instead of the original note.  Declining returns
the distinguished falsy `abandoned` outcome, not an exception. -/
theorem newNote_retry_drops_argument :
    newNoteRetry (some sampleNote1) true = RetryDecision.retried none
    ∧ some sampleNote1 ≠ (none : Option Note)
    ∧ loadDatesRetry (some 5) true = RetryDecision.retried (some 5)
    ∧ deleteNoteRetry (some "rwihfnldbxf") true
        = RetryDecision.retried (some "rwihfnldbxf")
    ∧ newNoteRetry (some sampleNote1) false = RetryDecision.abandoned :=
  ⟨rfl, Option.some_ne_none sampleNote1, rfl, rfl, rfl⟩

/-- C7: when the fetch fails (`res.ok = false`) and the user declines
the retry prompt, `loadDates` returns the distinguished falsy
`abandoned` outcome without throwing, commits nothing, and the store
state (notes collection, checkpoint and loading flag) is returned
exactly as it was. -/
theorem loadDates_abandon_leaves_state :
    ∀ (s : StoreState) (after : Option Int) (res : NotesPageResponse),
      res.ok = false →
      loadDates s after res false
        = (s, [requestUrl after], LoadDatesOutcome.abandoned) := by
  intro s after res h
  rw [loadDates, if_pos h, if_neg Bool.false_ne_true]

theorem loadDates_abandon_leaves_state_w :
    loadDates staleState none failRes false
      = (staleState, [requestUrl none], LoadDatesOutcome.abandoned) :=
  loadDates_abandon_leaves_state staleState none failRes rfl

/-- C9: the local note-creation and note-deletion actions commit their
mutation to the local collection and return immediately: no network
request is issued and every other state field is unchanged. -/
theorem local_actions_no_network :
    ∀ (s : StoreState) (note : Note) (noteID : String),
      (newNoteAction s note).2 = []
      ∧ (newNoteAction s note).1.notes = addNewNote s.notes note
      ∧ (newNoteAction s note).1.loading = s.loading
      ∧ (newNoteAction s note).1.lastSync = s.lastSync
      ∧ (deleteNoteAction s noteID).2 = []
      ∧ (deleteNoteAction s noteID).1.notes = deleteNote s.notes noteID
      ∧ (deleteNoteAction s noteID).1.loading = s.loading
      ∧ (deleteNoteAction s noteID).1.lastSync = s.lastSync :=
  fun _ _ _ => ⟨rfl, rfl, rfl, rfl, rfl, rfl, rfl, rfl⟩

/-- C10: `AuthChecker` redirects to the login route exactly when the
target route requires private auth and no user is logged in; the
redirect carries the target path and query as its `redirect` query
parameter unless the target path is "/", in which case no query is
attached. -/
theorem AuthChecker_login_redirect :
    ∀ (dest : RouteTo) (cu org : Bool),
      ((∃ q, AuthChecker dest cu org = NavDecision.go "login" q)
        ↔ (dest.auth = AuthType.privateAuth ∧ cu = false))
      ∧ (dest.auth = AuthType.privateAuth → cu = false →
          AuthChecker dest cu org
            = NavDecision.go "login"
                (if dest.path = "/" then none
                 else some { path := dest.path, query := dest.query })) := by
  intro dest cu org
  obtain ⟨nm, pa, qu, au⟩ := dest
  cases au <;> cases cu <;> cases org <;>
    by_cases hn : nm = "new-user" <;>
      simp [AuthChecker, requiredAuth, hn]

theorem AuthChecker_login_redirect_w :
    AuthChecker createRoute false false
      = NavDecision.go "login" (some { path := "/create", query := [("a", "b")] }) := by
  have h := (AuthChecker_login_redirect createRoute false false).2 rfl rfl
  rw [if_neg (by decide : ¬createRoute.path = "/")] at h
  exact h
